import Mathlib

/-!
Shallow embedding of `websocket_client.py` (PaddleSpeech streaming ASR client).

The file models the three components the specification claims talk about:

* `TextHttpHandler` — the punctuation-restoration HTTP client
  (`TextHttpHandler.__init__` / `TextHttpHandler.run`).
* `read_wave` — the chunk generator of `ASRWsAudioHandler.read_wave`
  (file reading via `soundfile` is abstracted: the embedding receives the
  decoded sample buffer directly; the `sample_rate == 16000` assertion makes
  the chunk size the constant `int(85 * 16000 / 1000) = 1360`).
* `ASRWsAudioHandler.run` / `run_online` — the streaming session.  The
  websocket is abstracted by an oracle (`WsServer`) whose operations are
  fallible (`Except String _`), mirroring the fact that every `await` in the
  Python code can raise a transport exception which the code does not catch.
  The trace of externally visible actions (connect attempt, sends, receives,
  punctuation-restoration calls, audio-device teardown calls) is returned
  alongside the result.

Python values that are sometimes a raw string and sometimes a parsed JSON
dict (the `msg` variable of `run`) are modelled by `PyVal`; subscripting a
string with `'result'` is the `TypeError` path of `PyVal.getResult`.
-/

set_option linter.unusedVariables false

/-- Minimal JSON value model, enough for the bodies and responses that the
client builds and consumes. -/
inductive Json where
  | null : Json
  | str (s : String) : Json
  | num (n : Int) : Json
  | arr (xs : List Json) : Json
  | obj (fields : List (String × Json)) : Json

/-- Python `d[k]`: key lookup on a JSON object.  A missing key is `KeyError`,
subscripting a non-object with a string key is `TypeError`; both are
exceptions, modelled as `Except.error`. -/
def Json.getField : Json → String → Except String Json
  | .obj fields, k =>
      match fields.find? (fun kv => kv.1 == k) with
      | some kv => .ok kv.2
      | none => .error "KeyError"
  | _, _ => .error "TypeError"

/-- Structure `TextHttpHandler`: fields set by `__init__`. -/
structure TextHttpHandler where
  server_ip : Option String
  port : Option Nat
  url : Option String

/-- Constructor `TextHttpHandler.__init__(server_ip="127.0.0.1", port=8090)`:
stores both arguments and precomputes the endpoint URL
`'http://' + server_ip + ":" + str(port) + '/paddlespeech/text'`,
or `None` when either argument is `None`. -/
def TextHttpHandler.build (server_ip : Option String := some "127.0.0.1")
    (port : Option Nat := some 8090) : TextHttpHandler :=
  { server_ip := server_ip
    port := port
    url :=
      match server_ip, port with
      | some ip, some p => some ("http://" ++ ip ++ ":" ++ toString p ++ "/paddlespeech/text")
      | _, _ => none }

/-- The body of the `try:` block of `TextHttpHandler.run`:
`res = requests.post(url=self.url, data=json.dumps(request))`,
`response_dict = res.json()`, then
`punc_text = response_dict["result"]["punc_text"]`.
The HTTP layer is the oracle `post`; its `Except.error` covers a network
failure of `requests.post` as well as a `res.json()` parse failure. -/
def TextHttpHandler.attempt (h : TextHttpHandler)
    (post : Option String → Json → Except String Json) (text : String) :
    Except String Json :=
  match post h.url (Json.obj [("text", Json.str text)]) with
  | .error e => .error e
  | .ok res =>
    match res.getField "result" with
    | .error e => .error e
    | .ok resultField =>
      match resultField.getField "punc_text" with
      | .error e => .error e
      | .ok punc => .ok punc

/-- Method `TextHttpHandler.run(text)`.  Returns the produced value together with the
list of HTTP requests issued (URL passed to `requests.post`, JSON body).
When `server_ip` or `port` is `None` the input is returned at once with no
request; otherwise exactly one request is made and any exception of the
`try:` block falls back to the input text (`punc_text = text`). -/
def TextHttpHandler.run (h : TextHttpHandler)
    (post : Option String → Json → Except String Json) (text : String) :
    Json × List (Option String × Json) :=
  if h.server_ip = none ∨ h.port = none then
    (Json.str text, [])
  else
    let request := Json.obj [("text", Json.str text)]
    match h.attempt post text with
    | .ok punc => (punc, [(h.url, request)])
    | .error _ => (Json.str text, [(h.url, request)])

/-! ## Chunking (`ASRWsAudioHandler.read_wave`) -/

/-- Constant `chunk_size = int(85 * sample_rate / 1000)` with the asserted
`sample_rate == 16000`, i.e. 1360 samples. -/
def chunk_size : Nat := 85 * 16000 / 1000

/-- The chunking arithmetic of `read_wave`, with the chunk length as a
parameter: `padding_len_x = chunk_size - x_len % chunk_size` when
`x_len % chunk_size != 0` else `0`; `padded_x = samples + zeros`;
`num_chunk = (x_len + padding_len_x) / chunk_size`; the generator yields
`padded_x[i*chunk_size : (i+1)*chunk_size]` for `i in range(num_chunk)`. -/
def chunkFrames (samples : List Int) (c : Nat) : List (List Int) :=
  let x_len := samples.length
  let padding_len_x := if x_len % c ≠ 0 then c - x_len % c else 0
  let padded_x := samples ++ List.replicate padding_len_x 0
  let num_chunk := (x_len + padding_len_x) / c
  (List.range num_chunk).map (fun i => (padded_x.drop (i * c)).take c)

/-- Generator `ASRWsAudioHandler.read_wave`, after the 16 kHz assertion fixes the chunk
size at 1360 samples.  File decoding is abstracted: the function receives the
`int16` sample buffer. -/
def read_wave (samples : List Int) : List (List Int) :=
  chunkFrames samples chunk_size

/-! ## Streaming session (`ASRWsAudioHandler`) -/

/-- A parsed server response: the `result` field the client reads and
overwrites, plus the remaining server-defined fields, kept opaque. -/
structure RecognitionResult where
  result : String
  extra : List (String × String)
deriving DecidableEq, Repr

/-- Messages the client sends on the websocket: the `signal:"start"` control
JSON, a binary audio chunk (`chunk_data.tobytes()`), or the `signal:"end"`
control JSON. -/
inductive SendMsg where
  | start : SendMsg
  | frame (data : List Int) : SendMsg
  | stop : SendMsg
deriving DecidableEq, Repr

/-- Externally visible actions of the session, in order: a websocket connect
attempt, a `ws.send`, a `ws.recv`, a call `punc_server.run(text)`, and the
audio-device teardown calls of `run_online`. -/
inductive Event where
  | connect : Event
  | send (m : SendMsg) : Event
  | recv : Event
  | restoreCall (text : String) : Event
  | deviceStop : Event
  | deviceClose : Event
  | deviceTerminate : Event
deriving DecidableEq, Repr

/-- A `msg` variable as the Python code holds it: the raw string of a
`ws.recv()` before `json.loads`, or a parsed response dict. -/
inductive PyVal where
  | str (s : String) : PyVal
  | dict (m : RecognitionResult) : PyVal
deriving DecidableEq, Repr

/-- Errors `run` can raise: an uncaught transport exception from a websocket
operation, or the `TypeError` of subscripting a string with `'result'`. -/
inductive RunErr where
  | transport (e : String) : RunErr
  | typeError : RunErr
deriving DecidableEq, Repr

/-- Subscripting `msg['result']` as the code uses it on `msg : PyVal`: a `TypeError` on a
raw string, the `result` field on a parsed dict (present in every modelled
response). -/
def PyVal.getResult : PyVal → Except RunErr String
  | .str _ => .error .typeError
  | .dict m => .ok m.result

/-- Assignment `msg["result"] = r` on a parsed dict (only reached after
`PyVal.getResult` succeeded, so the string case is inert). -/
def PyVal.setResult : PyVal → String → PyVal
  | .str s, _ => .str s
  | .dict m, r => .dict { m with result := r }

/-- The remote side of the websocket, as an oracle.  Every operation may fail
(`Except.error` = a transport exception raised at that `await`); receives of
JSON responses are delivered already parsed (the claims under study do not
exercise `json.loads` failures). `recvFrame i` answers the `i`-th audio
chunk (0-based). -/
structure WsServer where
  connect : Except String Unit
  sendStart : Except String Unit
  recvStart : Except String String
  sendFrame : Nat → Except String Unit
  recvFrame : Nat → Except String RecognitionResult
  sendEnd : Except String Unit
  recvEnd : Except String RecognitionResult

/-- The `for chunk_data in self.read_wave(...)` loop of `run`: send the chunk
bytes, then block on one `recv` and parse it, carrying `msg` across
iterations (`i` is the index of the next chunk).  Returns the events of the
loop and either the `msg` value after the loop or the first uncaught
transport error. -/
def runChunkLoop (srv : WsServer) (msg : PyVal) (i : Nat) :
    List (List Int) → List Event × Except String PyVal
  | [] => ([], .ok msg)
  | f :: rest =>
    match srv.sendFrame i with
    | .error e => ([.send (.frame f)], .error e)
    | .ok _ =>
      match srv.recvFrame i with
      | .error e => ([.send (.frame f), .recv], .error e)
      | .ok m =>
        let r := runChunkLoop srv (.dict m) (i + 1) rest
        (.send (.frame f) :: .recv :: r.1, r.2)

/-- Structure `ASRWsAudioHandler`: the only field `run` consults is `self.url` (the
punctuation handler it constructs is modelled by the `restore` argument of
`run`, since `self.punc_server.run` is the only use made of it). -/
structure ASRWsAudioHandler where
  url : Option String
  punc_server : TextHttpHandler

/-- Constructor `ASRWsAudioHandler.__init__(url, port, endpoint, punc_server_ip,
punc_server_port)`: `self.url` becomes `None` when `url`, `port` or
`endpoint` is `None`, else `"ws://" + url + ":" + str(port) + endpoint`;
`self.punc_server = TextHttpHandler(punc_server_ip, punc_server_port)`. -/
def ASRWsAudioHandler.build (url : Option String := none) (port : Option Nat := none)
    (endpoint : Option String := some "/paddlespeech/asr/streaming")
    (punc_server_ip : Option String := none) (punc_server_port : Option Nat := none) :
    ASRWsAudioHandler :=
  { url :=
      match url, port, endpoint with
      | some u, some p, some e => some ("ws://" ++ u ++ ":" ++ toString p ++ e)
      | _, _, _ => none
    punc_server := TextHttpHandler.build punc_server_ip punc_server_port }

/-- Method `ASRWsAudioHandler.run(wavfile_path)` with the audio chunks of
`read_wave` supplied as `frames` and the punctuation client abstracted as
`restore` (`self.punc_server.run`; the object itself is always truthy in the
source, so the `if self.punc_server` guards always pass).  Returns the event
trace and either the returned value or the uncaught exception.  Mirrors the
source step by step: early `return ""` when `self.url is None`; connect;
start handshake (the acknowledgement is kept as a raw string in `msg`); the
chunk loop; the guarded mid-stream restoration `if self.punc_server and
len(msg['result']) > 0`; the end handshake; the unconditional final
restoration; `return result`. -/
def ASRWsAudioHandler.run (h : ASRWsAudioHandler) (srv : WsServer)
    (restore : String → String) (frames : List (List Int)) :
    List Event × Except RunErr PyVal :=
  match h.url with
  | none => ([], .ok (.str ""))
  | some _ =>
    match srv.connect with
    | .error e => ([.connect], .error (.transport e))
    | .ok _ =>
      match srv.sendStart with
      | .error e => ([.connect, .send .start], .error (.transport e))
      | .ok _ =>
        match srv.recvStart with
        | .error e => ([.connect, .send .start, .recv], .error (.transport e))
        | .ok ack =>
          let pre : List Event := [.connect, .send .start, .recv]
          match runChunkLoop srv (.str ack) 0 frames with
          | (evs, .error e) => (pre ++ evs, .error (.transport e))
          | (evs, .ok msg) =>
            match msg.getResult with
            | .error err => (pre ++ evs, .error err)
            | .ok r =>
              let doMid := 0 < r.length
              let evs2 := if doMid then evs ++ [Event.restoreCall r] else evs
              let msg2 := if doMid then msg.setResult (restore r) else msg
              match srv.sendEnd with
              | .error e => (pre ++ evs2 ++ [.send .stop], .error (.transport e))
              | .ok _ =>
                match srv.recvEnd with
                | .error e => (pre ++ evs2 ++ [.send .stop, .recv], .error (.transport e))
                | .ok fin =>
                  (pre ++ evs2 ++ [.send .stop, .recv, .restoreCall fin.result],
                   .ok (.dict { fin with result := restore fin.result }))

/-- Test: the event is a wire message (a send or a receive). -/
def Event.isWire : Event → Bool
  | .send _ => true
  | .recv => true
  | _ => false

/-- Test: the event is a punctuation-restoration call. -/
def Event.isRestore : Event → Bool
  | .restoreCall _ => true
  | _ => false

/-- Test: the event is the send of the `signal:"start"` control message. -/
def Event.isStartSend : Event → Bool
  | .send .start => true
  | _ => false

/-- Test: the event is the send of the `signal:"end"` control message. -/
def Event.isStopSend : Event → Bool
  | .send .stop => true
  | _ => false

/-- The wire messages of a trace. -/
def wireTrace (t : List Event) : List Event :=
  t.filter Event.isWire

/-- Strict request/response alternation: the trace is a sequence of
send-then-recv pairs (each send is followed by exactly one receive before
the next send). -/
def isPingPong : List Event → Bool
  | [] => true
  | .send _ :: .recv :: rest => isPingPong rest
  | _ => false

/-! ## Live-microphone session (`ASRWsAudioHandler.run_online`) -/

/-- The condition of the streaming loop of `run_online`: literally
`while True`. -/
def runOnlineLoopCond : Bool := true

/-- One iteration of the `run_online` loop: `stream.read` one chunk from the
microphone (`mic i`), send it, receive and parse one response (`resp i`),
and restore punctuation when the result is non-empty (the same always-truthy
`if self.punc_server and len(msg['result']) > 0` guard as in `run`). -/
def runOnlineIter (resp : Nat → RecognitionResult) (mic : Nat → List Int) (i : Nat) :
    List Event :=
  [.send (.frame (mic i)), .recv] ++
    (if 0 < (resp i).result.length then [Event.restoreCall (resp i).result] else [])

/-- The events emitted by the first `n` iterations of the `run_online`
loop. -/
def runOnlineLoopEvents (resp : Nat → RecognitionResult) (mic : Nat → List Int) :
    Nat → List Event
  | 0 => []
  | n + 1 => runOnlineLoopEvents resp mic n ++ runOnlineIter resp mic n

/-- The code after the `run_online` loop: the `signal:"end"` handshake, the
final restoration, and `stream.stop_stream(); stream.close();
audio.terminate()` — reached only if the loop exits. -/
def runOnlinePostLoop (finResult : String) : List Event :=
  [.send .stop, .recv, .restoreCall finResult, .deviceStop, .deviceClose, .deviceTerminate]

/-- Fuel-indexed execution of the `run_online` loop and its continuation:
with fuel `n + 1`, test `while True`'s condition; when true run one
iteration and continue with fuel `n`, when false fall through to the
post-loop code.  `none` means the fuel ran out with the loop still
running. -/
def runOnlineExec (resp : Nat → RecognitionResult) (mic : Nat → List Int)
    (finResult : String) (i : Nat) : Nat → Option (List Event)
  | 0 => none
  | n + 1 =>
    if runOnlineLoopCond then
      (runOnlineExec resp mic finResult (i + 1) n).map
        (fun evs => runOnlineIter resp mic i ++ evs)
    else
      some (runOnlinePostLoop finResult)

/-! ## Test fixtures and auxiliary predicates -/

/-- A well-behaved mock server: acks the start, answers frame `i` with result
`"r" ++ toString i`, and answers the end signal with `"final transcript"`. -/
def demoServer : WsServer :=
  { connect := .ok ()
    sendStart := .ok ()
    recvStart := .ok "ack"
    sendFrame := fun _ => .ok ()
    recvFrame := fun i => .ok { result := "r" ++ toString i, extra := [] }
    sendEnd := .ok ()
    recvEnd := .ok { result := "final transcript", extra := [] } }

/-- The mock server whose connect raises. -/
def connFailServer : WsServer :=
  { demoServer with connect := .error "boom" }

/-- The start handshake (connect, start send, start receive) succeeds. -/
def startOk (srv : WsServer) : Prop :=
  srv.connect = .ok () ∧ srv.sendStart = .ok () ∧ ∃ a, srv.recvStart = .ok a

/-- Every chunk exchange before index `k` succeeds. -/
def framesOkBelow (srv : WsServer) (k : Nat) : Prop :=
  ∀ j, j < k → srv.sendFrame j = .ok () ∧ ∃ m, srv.recvFrame j = .ok m

/-! ## Chunking lemmas -/

theorem join_chunks (c : Nat) (hc : 0 < c) :
    ∀ (k : Nat) (l : List Int), l.length = k * c →
      ((List.range k).map (fun i => (l.drop (i * c)).take c)).flatten = l := by
  intro k
  induction k with
  | zero =>
    intro l hl
    simp at hl
    simp [hl]
  | succ n ih =>
    intro l hl
    rw [List.range_succ_eq_map]
    simp only [List.map_cons, List.map_map, List.flatten_cons]
    have h0 : (l.drop (0 * c)).take c = l.take c := by simp
    have hfun : ((fun i => (l.drop (i * c)).take c) ∘ Nat.succ)
        = fun i => ((l.drop c).drop (i * c)).take c := by
      funext i
      simp only [Function.comp]
      rw [List.drop_drop]
      congr 2
      rw [Nat.succ_mul]
      ring
    rw [h0, hfun, ih (l.drop c) (by simp [hl, Nat.succ_mul])]
    exact List.take_append_drop c l

theorem chunkFrames_num_eq (samples : List Int) (c : Nat) (hc : 0 < c) :
    (samples.length + (if samples.length % c ≠ 0 then c - samples.length % c else 0)) / c
      = (samples.length + c - 1) / c := by
  have hmod := Nat.div_add_mod samples.length c
  set q := samples.length / c with hq
  set r := samples.length % c with hr
  have hrc : r < c := Nat.mod_lt _ hc
  by_cases h : r = 0
  · have h1 : samples.length + (if samples.length % c ≠ 0 then c - samples.length % c else 0)
        = c * q := by
      rw [← hr] at *
      simp [h]
      omega
    have h2 : samples.length + c - 1 = c * q + (c - 1) := by omega
    rw [h1, h2, Nat.mul_div_cancel_left _ hc, Nat.mul_add_div hc,
      Nat.div_eq_of_lt (by omega)]
    omega
  · have h1 : samples.length + (if samples.length % c ≠ 0 then c - samples.length % c else 0)
        = c * q + c := by
      rw [← hr] at *
      simp [h]
      omega
    have h2 : samples.length + c - 1 = c * q + c + (r - 1) := by omega
    have h3 : c * q + c = c * (q + 1) := by ring
    rw [h1, h2, h3, Nat.mul_div_cancel_left _ hc, Nat.mul_add_div hc,
      Nat.div_eq_of_lt (by omega)]

theorem chunkFrames_padded_length (samples : List Int) (c : Nat) (hc : 0 < c) :
    samples.length + (if samples.length % c ≠ 0 then c - samples.length % c else 0)
      = ((samples.length + (if samples.length % c ≠ 0 then c - samples.length % c else 0)) / c) * c := by
  have hmod := Nat.div_add_mod samples.length c
  set q := samples.length / c with hq
  set r := samples.length % c with hr
  have hrc : r < c := Nat.mod_lt _ hc
  by_cases h : r = 0
  · have h1 : samples.length + (if samples.length % c ≠ 0 then c - samples.length % c else 0)
        = c * q := by
      rw [← hr] at *
      simp [h]
      omega
    rw [h1, Nat.mul_div_cancel_left _ hc]
    ring
  · have h1 : samples.length + (if samples.length % c ≠ 0 then c - samples.length % c else 0)
        = c * (q + 1) := by
      rw [← hr] at *
      simp [h]
      ring_nf
      omega
    rw [h1, Nat.mul_div_cancel_left _ hc]
    ring

theorem chunkFrames_length (samples : List Int) (c : Nat) (hc : 0 < c) :
    (chunkFrames samples c).length = (samples.length + c - 1) / c := by
  unfold chunkFrames
  simp only [List.length_map, List.length_range]
  exact chunkFrames_num_eq samples c hc

theorem chunkFrames_each_length (samples : List Int) (c : Nat) (hc : 0 < c) :
    ∀ f ∈ chunkFrames samples c, f.length = c := by
  intro f hf
  unfold chunkFrames at hf
  simp only [List.mem_map, List.mem_range] at hf
  obtain ⟨i, hi, rfl⟩ := hf
  have hpad := chunkFrames_padded_length samples c hc
  set pad := if samples.length % c ≠ 0 then c - samples.length % c else 0 with hpaddef
  set num := (samples.length + pad) / c with hnum
  have hlen : (samples ++ List.replicate pad (0 : Int)).length = num * c := by
    simp [hpad]
  rw [List.length_take, List.length_drop, hlen]
  have h1 : i + 1 ≤ num := hi
  have h2 : i * c + c ≤ num * c := by
    have := Nat.mul_le_mul_right c h1
    rwa [Nat.succ_mul] at this
  omega

theorem chunkFrames_join (samples : List Int) (c : Nat) (hc : 0 < c) :
    (chunkFrames samples c).flatten =
      samples ++ List.replicate (c * (chunkFrames samples c).length - samples.length) (0 : Int) := by
  have hpad := chunkFrames_padded_length samples c hc
  unfold chunkFrames
  simp only [List.length_map, List.length_range]
  set pad := if samples.length % c ≠ 0 then c - samples.length % c else 0 with hpaddef
  set num := (samples.length + pad) / c with hnum
  have hlen : (samples ++ List.replicate pad (0 : Int)).length = num * c := by
    simp [hpad]
  rw [join_chunks c hc num _ hlen]
  have h2 : c * num = samples.length + pad := by
    rw [Nat.mul_comm]
    exact hpad.symm
  have h3 : c * num - samples.length = pad := by omega
  rw [h3]

/-! ## Claim theorems: chunking -/

/-- C1: for every sample buffer of length `N` and chunk length `C > 0`
(`C = int(85*16000/1000) = 1360` in the reference configuration),
`read_wave` yields exactly `ceil(N/C) = (N + C - 1) / C` frames, each of
length exactly `C`, and the concatenation of all yielded frames equals the
original `N` samples followed by `C * ceil(N/C) - N` zero samples; in
particular a 16000-sample buffer yields 12 frames of 1360 samples. -/
theorem read_wave_chunking (samples : List Int) (c : Nat) (hc : 0 < c) :
    (chunkFrames samples c).length = (samples.length + c - 1) / c
    ∧ (∀ f ∈ chunkFrames samples c, f.length = c)
    ∧ (chunkFrames samples c).flatten =
        samples ++ List.replicate (c * (chunkFrames samples c).length - samples.length) (0 : Int)
    ∧ (samples.length = 16000 →
        (read_wave samples).length = 12 ∧ ∀ f ∈ read_wave samples, f.length = 1360) := by
  refine ⟨chunkFrames_length samples c hc, chunkFrames_each_length samples c hc,
    chunkFrames_join samples c hc, ?_⟩
  intro h16
  have hcs : chunk_size = 1360 := by norm_num [chunk_size]
  constructor
  · rw [read_wave, hcs, chunkFrames_length samples 1360 (by norm_num), h16]
  · rw [read_wave, hcs]
    exact chunkFrames_each_length samples 1360 (by norm_num)

/-- Witness for C1 at the concrete buffer `[1, 2, 3]` and chunk length 2:
two frames of length 2 whose concatenation is the buffer plus one zero. -/
theorem read_wave_chunking_witness :
    (chunkFrames [1, 2, 3] 2).length = (3 + 2 - 1) / 2
    ∧ (∀ f ∈ chunkFrames [1, 2, 3] 2, f.length = 2)
    ∧ (chunkFrames [1, 2, 3] 2).flatten =
        [1, 2, 3] ++ List.replicate (2 * (chunkFrames [1, 2, 3] 2).length - 3) (0 : Int) := by
  have h := read_wave_chunking [1, 2, 3] 2 (by norm_num)
  exact ⟨h.1, h.2.1, h.2.2.1⟩

/-! ## Claim theorems: punctuation client -/

/-- C3: `TextHttpHandler.run` with `server_ip = None` or `port = None`
returns exactly its input (for every input string, including the empty one)
and performs zero HTTP requests. -/
theorem textHandler_unconfigured_identity (server_ip : Option String) (port : Option Nat)
    (post : Option String → Json → Except String Json) (text : String)
    (h : server_ip = none ∨ port = none) :
    (TextHttpHandler.build server_ip port).run post text = (Json.str text, []) := by
  unfold TextHttpHandler.run TextHttpHandler.build
  rw [if_pos]
  exact h

/-- Witness for C3: an unconfigured handler returns `""` unchanged with an
empty request list even against an erroring HTTP layer. -/
theorem textHandler_unconfigured_identity_witness :
    (TextHttpHandler.build none (some 8090)).run (fun _ _ => .error "net") ""
      = (Json.str "", []) :=
  textHandler_unconfigured_identity none (some 8090) (fun _ _ => .error "net") ""
    (Or.inl rfl)

/-- C4: `TextHttpHandler.run` never propagates an error: it is a total
function, and whenever the request/parse pipeline (`attempt`) fails in any
way — network error, malformed response, missing `result.punc_text` field —
the original input text is returned unchanged. -/
theorem textHandler_failure_fallback (h : TextHttpHandler)
    (post : Option String → Json → Except String Json) (text : String) (e : String)
    (hfail : h.attempt post text = .error e) :
    (h.run post text).1 = Json.str text := by
  unfold TextHttpHandler.run
  split
  · rfl
  · rw [hfail]

/-- Witness for C4: a configured handler whose HTTP layer raises returns the
input `"Hello world"` unchanged. -/
theorem textHandler_failure_fallback_witness :
    (TextHttpHandler.build (some "127.0.0.1") (some 8090)).attempt
        (fun _ _ => .error "net") "Hello world" = .error "net"
    ∧ ((TextHttpHandler.build (some "127.0.0.1") (some 8090)).run
        (fun _ _ => .error "net") "Hello world").1 = Json.str "Hello world" :=
  ⟨rfl, textHandler_failure_fallback _ _ "Hello world" "net" rfl⟩

/-- C5 counterexample: the configured endpoint URL the client requests is
`http://host:port/paddlespeech/text`, not `http://host:port/text/punctuation`
as the claim states; shown on the handler built from `("127.0.0.1", 8090)`,
whose one request goes to the former URL. -/
theorem textHandler_url_counterexample :
    ((TextHttpHandler.build (some "127.0.0.1") (some 8090)).run
        (fun _ _ => Except.error "net") "Hello world").2
      = [(some "http://127.0.0.1:8090/paddlespeech/text",
          Json.obj [("text", Json.str "Hello world")])]
    ∧ "http://127.0.0.1:8090/paddlespeech/text" ≠ "http://127.0.0.1:8090/text/punctuation" := by
  constructor
  · rfl
  · decide

/-- C5 (amended): when configured with host `ip` and port `p`,
`TextHttpHandler.run` issues exactly one request, to the URL
`http://ip:p/paddlespeech/text`, with JSON body `{"text": <input>}`, and when
the response parses it returns the `result.punc_text` field of the JSON
response. -/
theorem textHandler_configured_request (ip : String) (p : Nat)
    (post : Option String → Json → Except String Json) (text : String) :
    ((TextHttpHandler.build (some ip) (some p)).run post text).2 =
      [(some ("http://" ++ ip ++ ":" ++ toString p ++ "/paddlespeech/text"),
        Json.obj [("text", Json.str text)])]
    ∧ ∀ res inner punc,
        post (some ("http://" ++ ip ++ ":" ++ toString p ++ "/paddlespeech/text"))
            (Json.obj [("text", Json.str text)]) = .ok res →
        res.getField "result" = .ok inner →
        inner.getField "punc_text" = .ok punc →
        ((TextHttpHandler.build (some ip) (some p)).run post text).1 = punc := by
  constructor
  · unfold TextHttpHandler.run
    rw [if_neg (by simp [TextHttpHandler.build])]
    rcases hA : (TextHttpHandler.build (some ip) (some p)).attempt post text with e | v
    · simp [TextHttpHandler.build]
    · simp [TextHttpHandler.build]
  · intro res inner punc h1 h2 h3
    have hA : (TextHttpHandler.build (some ip) (some p)).attempt post text = .ok punc := by
      unfold TextHttpHandler.attempt
      simp only [TextHttpHandler.build]
      rw [h1]
      simp [h2, h3]
    unfold TextHttpHandler.run
    rw [if_neg (by simp [TextHttpHandler.build]), hA]

/-- Witness for C5 (amended): against a backend answering
`{"result": {"punc_text": "Hello, world."}}`, the configured handler requests
the fixed URL with body `{"text": "Hello world"}` and returns
`"Hello, world."`. -/
theorem textHandler_configured_request_witness :
    ((TextHttpHandler.build (some "127.0.0.1") (some 8090)).run
        (fun _ _ => Except.ok
          (Json.obj [("result", Json.obj [("punc_text", Json.str "Hello, world.")])]))
        "Hello world").2
      = [(some "http://127.0.0.1:8090/paddlespeech/text",
          Json.obj [("text", Json.str "Hello world")])]
    ∧ ((TextHttpHandler.build (some "127.0.0.1") (some 8090)).run
        (fun _ _ => Except.ok
          (Json.obj [("result", Json.obj [("punc_text", Json.str "Hello, world.")])]))
        "Hello world").1 = Json.str "Hello, world." := by
  have h := textHandler_configured_request "127.0.0.1" 8090
    (fun _ _ => Except.ok
      (Json.obj [("result", Json.obj [("punc_text", Json.str "Hello, world.")])]))
    "Hello world"
  exact ⟨h.1, h.2 _ _ _ rfl rfl rfl⟩

/-! ## Streaming-session lemmas -/

theorem runChunkLoop_ok_inv (srv : WsServer) :
    ∀ (frames : List (List Int)) (msg : PyVal) (i : Nat) (t : List Event) (m : PyVal),
      runChunkLoop srv msg i frames = (t, .ok m) →
      t = (frames.map (fun f => [Event.send (.frame f), Event.recv])).flatten
      ∧ ((frames = [] ∧ m = msg)
         ∨ ∃ w, srv.recvFrame (i + frames.length - 1) = .ok w ∧ m = .dict w) := by
  intro frames
  induction frames with
  | nil =>
    intro msg i t m h
    simp only [runChunkLoop, Prod.mk.injEq, Except.ok.injEq] at h
    obtain ⟨h1, h2⟩ := h
    subst h1
    exact ⟨rfl, Or.inl ⟨rfl, h2.symm⟩⟩
  | cons f rest ih =>
    intro msg i t m h
    simp only [runChunkLoop] at h
    cases hsf : srv.sendFrame i with
    | error e => simp [hsf] at h
    | ok u =>
      cases hrf : srv.recvFrame i with
      | error e => simp [hsf, hrf] at h
      | ok w0 =>
        simp only [hsf, hrf] at h
        rcases hr : runChunkLoop srv (.dict w0) (i + 1) rest with ⟨t', res⟩
        rw [hr] at h
        simp only [Prod.mk.injEq] at h
        obtain ⟨ht, hres⟩ := h
        obtain ⟨ht', hm⟩ := ih (.dict w0) (i + 1) t' m (by rw [hr, hres])
        subst ht
        constructor
        · simp [ht']
        · right
          rcases hm with ⟨hrest, hmm⟩ | ⟨w, hw, hmm⟩
          · subst hrest
            exact ⟨w0, by simpa using hrf, hmm⟩
          · refine ⟨w, ?_, hmm⟩
            have he : i + 1 + rest.length - 1 = i + (f :: rest).length - 1 := by
              simp only [List.length_cons]
              omega
            rw [← he]
            exact hw

theorem runChunkLoop_sendErr (srv : WsServer) :
    ∀ (frames : List (List Int)) (i k : Nat) (msg : PyVal) (e : String),
      k < frames.length →
      (∀ j, j < k → srv.sendFrame (i + j) = .ok () ∧ ∃ m', srv.recvFrame (i + j) = .ok m') →
      srv.sendFrame (i + k) = .error e →
      (runChunkLoop srv msg i frames).2 = .error e := by
  intro frames
  induction frames with
  | nil =>
    intro i k msg e hk
    simp at hk
  | cons f rest ih =>
    intro i k msg e hk hall herr
    cases k with
    | zero =>
      simp only [Nat.add_zero] at herr
      simp [runChunkLoop, herr]
    | succ k' =>
      obtain ⟨hs0, m', hr0⟩ := hall 0 (Nat.succ_pos _)
      simp only [Nat.add_zero] at hs0 hr0
      simp only [runChunkLoop, hs0, hr0]
      show (runChunkLoop srv (.dict m') (i + 1) rest).2 = .error e
      apply ih (i + 1) k' (.dict m') e
      · simpa using hk
      · intro j hj
        obtain ⟨ha, mm, hmm⟩ := hall (j + 1) (by omega)
        refine ⟨?_, mm, ?_⟩
        · rw [show i + 1 + j = i + (j + 1) by omega]
          exact ha
        · rw [show i + 1 + j = i + (j + 1) by omega]
          exact hmm
      · rw [show i + 1 + k' = i + (k' + 1) by omega]
        exact herr

theorem runChunkLoop_recvErr (srv : WsServer) :
    ∀ (frames : List (List Int)) (i k : Nat) (msg : PyVal) (e : String),
      k < frames.length →
      (∀ j, j < k → srv.sendFrame (i + j) = .ok () ∧ ∃ m', srv.recvFrame (i + j) = .ok m') →
      srv.sendFrame (i + k) = .ok () →
      srv.recvFrame (i + k) = .error e →
      (runChunkLoop srv msg i frames).2 = .error e := by
  intro frames
  induction frames with
  | nil =>
    intro i k msg e hk
    simp at hk
  | cons f rest ih =>
    intro i k msg e hk hall hsk herr
    cases k with
    | zero =>
      simp only [Nat.add_zero] at hsk herr
      simp [runChunkLoop, hsk, herr]
    | succ k' =>
      obtain ⟨hs0, m', hr0⟩ := hall 0 (Nat.succ_pos _)
      simp only [Nat.add_zero] at hs0 hr0
      simp only [runChunkLoop, hs0, hr0]
      show (runChunkLoop srv (.dict m') (i + 1) rest).2 = .error e
      apply ih (i + 1) k' (.dict m') e
      · simpa using hk
      · intro j hj
        obtain ⟨ha, mm, hmm⟩ := hall (j + 1) (by omega)
        refine ⟨?_, mm, ?_⟩
        · rw [show i + 1 + j = i + (j + 1) by omega]
          exact ha
        · rw [show i + 1 + j = i + (j + 1) by omega]
          exact hmm
      · rw [show i + 1 + k' = i + (k' + 1) by omega]
        exact hsk
      · rw [show i + 1 + k' = i + (k' + 1) by omega]
        exact herr

theorem runChunkLoop_allOk (srv : WsServer) :
    ∀ (frames : List (List Int)) (i : Nat) (msg : PyVal),
      (∀ j, j < frames.length →
        srv.sendFrame (i + j) = .ok () ∧ ∃ m', srv.recvFrame (i + j) = .ok m') →
      (frames = [] ∧ (runChunkLoop srv msg i frames).2 = .ok msg)
      ∨ ∃ w, (runChunkLoop srv msg i frames).2 = .ok (.dict w) := by
  intro frames
  induction frames with
  | nil =>
    intro i msg hall
    exact Or.inl ⟨rfl, rfl⟩
  | cons f rest ih =>
    intro i msg hall
    right
    obtain ⟨hs0, m', hr0⟩ := hall 0 (Nat.succ_pos _)
    simp only [Nat.add_zero] at hs0 hr0
    simp only [runChunkLoop, hs0, hr0]
    have hrec := ih (i + 1) (.dict m') (fun j hj => by
      obtain ⟨ha, mm, hmm⟩ := hall (j + 1) (by simpa using Nat.succ_lt_succ hj)
      refine ⟨?_, mm, ?_⟩
      · rw [show i + 1 + j = i + (j + 1) by omega]
        exact ha
      · rw [show i + 1 + j = i + (j + 1) by omega]
        exact hmm)
    show ∃ w, (runChunkLoop srv (.dict m') (i + 1) rest).2 = .ok (.dict w)
    rcases hrec with ⟨hrest, hok⟩ | ⟨w, hw⟩
    · exact ⟨m', hok⟩
    · exact ⟨w, hw⟩

theorem run_ok_inv (h : ASRWsAudioHandler) (u : String) (srv : WsServer)
    (restore : String → String) (frames : List (List Int)) (t : List Event) (v : PyVal)
    (hu : h.url = some u) (hrun : h.run srv restore frames = (t, .ok v)) :
    ∃ ack lastw fin,
      srv.connect = .ok () ∧ srv.sendStart = .ok () ∧ srv.recvStart = .ok ack
      ∧ frames ≠ []
      ∧ srv.recvFrame (frames.length - 1) = .ok lastw
      ∧ srv.recvEnd = .ok fin
      ∧ v = .dict { fin with result := restore fin.result }
      ∧ t = [Event.connect, .send .start, .recv]
            ++ (frames.map (fun f => [Event.send (.frame f), Event.recv])).flatten
            ++ (if 0 < lastw.result.length then [Event.restoreCall lastw.result] else [])
            ++ [.send .stop, .recv, .restoreCall fin.result] := by
  simp only [ASRWsAudioHandler.run, hu] at hrun
  cases hc : srv.connect with
  | error e => simp [hc] at hrun
  | ok u1 =>
    cases u1
    cases hss : srv.sendStart with
    | error e => simp [hc, hss] at hrun
    | ok u2 =>
      cases u2
      cases hrs : srv.recvStart with
      | error e => simp [hc, hss, hrs] at hrun
      | ok ack =>
        simp only [hc, hss, hrs] at hrun
        rcases hl : runChunkLoop srv (.str ack) 0 frames with ⟨evs, res⟩
        rw [hl] at hrun
        cases res with
        | error e => simp at hrun
        | ok msg =>
          obtain ⟨hevs, hdisj⟩ := runChunkLoop_ok_inv srv frames (.str ack) 0 evs msg hl
          cases hmsg : msg with
          | str s =>
            rw [hmsg] at hrun
            simp [PyVal.getResult] at hrun
          | dict w =>
            rw [hmsg] at hrun
            simp only [PyVal.getResult] at hrun
            cases hse : srv.sendEnd with
            | error e => simp [hse] at hrun
            | ok u3 =>
              cases u3
              cases hre : srv.recvEnd with
              | error e => simp [hse, hre] at hrun
              | ok fin =>
                simp only [hse, hre, Prod.mk.injEq, Except.ok.injEq] at hrun
                obtain ⟨ht, hv⟩ := hrun
                have hfne : frames ≠ [] := by
                  intro hfe
                  subst hfe
                  rw [hmsg] at hl
                  simp [runChunkLoop] at hl
                rcases hdisj with ⟨hfe, _⟩ | ⟨w0, hw0, hmm⟩
                · exact absurd hfe hfne
                · rw [hmsg] at hmm
                  injection hmm with hww
                  subst hww
                  simp only [Nat.zero_add] at hw0
                  refine ⟨ack, w, fin, rfl, rfl, rfl, hfne, hw0, rfl, hv.symm, ?_⟩
                  subst hevs
                  rw [← ht]
                  by_cases hcond : 0 < w.result.length
                  · simp [hcond]
                  · simp [hcond]

theorem wire_filter_pairs (frames : List (List Int)) :
    ((frames.map (fun f => [Event.send (.frame f), Event.recv])).flatten).filter Event.isWire
      = (frames.map (fun f => [Event.send (.frame f), Event.recv])).flatten := by
  induction frames with
  | nil => rfl
  | cons f rest ih => simp [Event.isWire, ih]

theorem restore_filter_pairs (frames : List (List Int)) :
    ((frames.map (fun f => [Event.send (.frame f), Event.recv])).flatten).filter Event.isRestore
      = [] := by
  induction frames with
  | nil => rfl
  | cons f rest ih => simp [Event.isRestore, ih]

theorem pingPong_pairs (frames : List (List Int)) (rest : List Event) :
    isPingPong ((frames.map (fun f => [Event.send (.frame f), Event.recv])).flatten ++ rest)
      = isPingPong rest := by
  induction frames with
  | nil => rfl
  | cons f fs ih => simp [isPingPong, ih]

theorem countP_start_pairs (frames : List (List Int)) :
    ((frames.map (fun f => [Event.send (.frame f), Event.recv])).flatten).countP
        Event.isStartSend = 0 := by
  induction frames with
  | nil => rfl
  | cons f rest ih => simp [List.countP_cons, Event.isStartSend, ih]

theorem countP_stop_pairs (frames : List (List Int)) :
    ((frames.map (fun f => [Event.send (.frame f), Event.recv])).flatten).countP
        Event.isStopSend = 0 := by
  induction frames with
  | nil => rfl
  | cons f rest ih => simp [List.countP_cons, Event.isStopSend, ih]

theorem runOnlineExec_none (resp : Nat → RecognitionResult) (mic : Nat → List Int)
    (finResult : String) :
    ∀ (n i : Nat), runOnlineExec resp mic finResult i n = none := by
  intro n
  induction n with
  | zero => intro i; rfl
  | succ m ih =>
    intro i
    simp [runOnlineExec, runOnlineLoopCond, ih]

theorem runOnlineIter_shape (resp : Nat → RecognitionResult) (mic : Nat → List Int)
    (i : Nat) (ev : Event) (hev : ev ∈ runOnlineIter resp mic i) :
    (∃ d, ev = Event.send (.frame d)) ∨ ev = .recv ∨ ∃ s, ev = .restoreCall s := by
  simp only [runOnlineIter, List.cons_append, List.nil_append, List.mem_cons] at hev
  rcases hev with h | h | h
  · exact Or.inl ⟨_, h⟩
  · exact Or.inr (Or.inl h)
  · by_cases hc : 0 < (resp i).result.length
    · rw [if_pos hc] at h
      simp at h
      exact Or.inr (Or.inr ⟨_, h⟩)
    · rw [if_neg hc] at h
      simp at h

theorem runOnlineLoop_no_postloop (resp : Nat → RecognitionResult) (mic : Nat → List Int) :
    ∀ n : Nat,
      Event.send .stop ∉ runOnlineLoopEvents resp mic n
      ∧ Event.deviceStop ∉ runOnlineLoopEvents resp mic n
      ∧ Event.deviceClose ∉ runOnlineLoopEvents resp mic n
      ∧ Event.deviceTerminate ∉ runOnlineLoopEvents resp mic n := by
  intro n
  induction n with
  | zero => simp [runOnlineLoopEvents]
  | succ m ih =>
    simp only [runOnlineLoopEvents, List.mem_append, not_or]
    refine ⟨⟨ih.1, ?_⟩, ⟨ih.2.1, ?_⟩, ⟨ih.2.2.1, ?_⟩, ⟨ih.2.2.2, ?_⟩⟩ <;>
      intro hmem <;>
      rcases runOnlineIter_shape resp mic m _ hmem with ⟨d, hd⟩ | hd | ⟨s, hd⟩ <;>
      simp at hd

/-! ## Claim theorems: streaming session -/

theorem pingPong_canonical (frames : List (List Int)) :
    isPingPong ([Event.send SendMsg.start, Event.recv]
      ++ (frames.map (fun f => [Event.send (.frame f), Event.recv])).flatten
      ++ [Event.send SendMsg.stop, Event.recv]) = true := by
  induction frames with
  | nil => rfl
  | cons f fs ih =>
    simpa [isPingPong] using ih

/-- C2: in every successful file-driven run over a configured endpoint, the
wire messages are exactly one `start` control message, then the audio frames
in order, then exactly one `end` control message, each send followed by
exactly one receive before the next send (strict request/response
ping-pong). -/
theorem run_message_order (h : ASRWsAudioHandler) (u : String) (srv : WsServer)
    (restore : String → String) (frames : List (List Int)) (t : List Event) (v : PyVal)
    (hu : h.url = some u) (hrun : h.run srv restore frames = (t, .ok v)) :
    wireTrace t
      = [Event.send .start, Event.recv]
          ++ (frames.map (fun f => [Event.send (.frame f), Event.recv])).flatten
          ++ [Event.send .stop, Event.recv]
    ∧ isPingPong (wireTrace t) = true
    ∧ t.countP Event.isStartSend = 1
    ∧ t.countP Event.isStopSend = 1 := by
  obtain ⟨ack, lastw, fin, _, _, _, _, _, _, _, ht⟩ :=
    run_ok_inv h u srv restore frames t v hu hrun
  have hw : wireTrace t
      = [Event.send .start, Event.recv]
          ++ (frames.map (fun f => [Event.send (.frame f), Event.recv])).flatten
          ++ [Event.send .stop, Event.recv] := by
    rw [ht]
    simp only [wireTrace, List.filter_append, wire_filter_pairs]
    by_cases hcond : 0 < lastw.result.length <;>
      simp [hcond, Event.isWire]
  refine ⟨hw, ?_, ?_, ?_⟩
  · rw [hw]
    exact pingPong_canonical frames
  · rw [ht]
    simp only [List.countP_append, countP_start_pairs]
    by_cases hcond : 0 < lastw.result.length <;>
      simp [hcond, List.countP_cons, Event.isStartSend]
  · rw [ht]
    simp only [List.countP_append, countP_stop_pairs]
    by_cases hcond : 0 < lastw.result.length <;>
      simp [hcond, List.countP_cons, Event.isStopSend]

/-- Witness for C2: the successful run of three frames against the mock
server is a strict ping-pong. -/
theorem run_message_order_witness :
    isPingPong (wireTrace ((ASRWsAudioHandler.build (some "1.2.3.4") (some 8090)
        (some "/paddlespeech/asr/streaming") none none).run demoServer
        (fun s => s) [[1], [2], [3]]).1) = true
    ∧ ((ASRWsAudioHandler.build (some "1.2.3.4") (some 8090)
        (some "/paddlespeech/asr/streaming") none none).run demoServer
        (fun s => s) [[1], [2], [3]]).1.countP Event.isStartSend = 1 := by
  have h := run_message_order
    (ASRWsAudioHandler.build (some "1.2.3.4") (some 8090)
      (some "/paddlespeech/asr/streaming") none none)
    "ws://1.2.3.4:8090/paddlespeech/asr/streaming" demoServer (fun s => s)
    [[1], [2], [3]]
    ((ASRWsAudioHandler.build (some "1.2.3.4") (some 8090)
      (some "/paddlespeech/asr/streaming") none none).run demoServer
      (fun s => s) [[1], [2], [3]]).1
    (.dict { result := "final transcript", extra := [] }) rfl (by rfl)
  exact ⟨h.2.1, h.2.2.1⟩

/-- C6: the value a completed file-driven run returns is obtained from the
response to the `end` control message — not from the running per-frame
result — with its `result` field overwritten by restoration.  The running
result is restored after the last frame's response exactly when its `result`
field is non-empty, and the final (end-handshake) result is restored again,
superseding the running result as the returned value. -/
theorem run_final_result (h : ASRWsAudioHandler) (u : String) (srv : WsServer)
    (restore : String → String) (frames : List (List Int)) (t : List Event) (v : PyVal)
    (lastw fin : RecognitionResult)
    (hu : h.url = some u)
    (hlast : srv.recvFrame (frames.length - 1) = .ok lastw)
    (hfin : srv.recvEnd = .ok fin)
    (hrun : h.run srv restore frames = (t, .ok v)) :
    v = .dict { fin with result := restore fin.result }
    ∧ t.filter Event.isRestore
        = (if 0 < lastw.result.length then [Event.restoreCall lastw.result] else [])
            ++ [Event.restoreCall fin.result] := by
  obtain ⟨ack, lastw0, fin0, _, _, _, _, hlast0, hfin0, hv, ht⟩ :=
    run_ok_inv h u srv restore frames t v hu hrun
  rw [hlast] at hlast0
  injection hlast0 with he1
  subst he1
  rw [hfin] at hfin0
  injection hfin0 with he2
  subst he2
  refine ⟨hv, ?_⟩
  rw [ht]
  simp only [List.filter_append, restore_filter_pairs]
  by_cases hcond : 0 < lastw.result.length <;>
    simp [hcond, Event.isRestore]

/-- Witness for C6: against the mock server, the run of three frames returns
the restored end-handshake result, and the trace shows the mid-stream
restoration of `"r2"` followed by the final restoration. -/
theorem run_final_result_witness :
    (((ASRWsAudioHandler.build (some "1.2.3.4") (some 8090)
          (some "/paddlespeech/asr/streaming") none none).run demoServer
          (fun s => s ++ ".") [[1], [2], [3]]).2
        = .ok (.dict { result := "final transcript.", extra := [] }))
    ∧ ((ASRWsAudioHandler.build (some "1.2.3.4") (some 8090)
          (some "/paddlespeech/asr/streaming") none none).run demoServer
          (fun s => s ++ ".") [[1], [2], [3]]).1.filter Event.isRestore
        = [Event.restoreCall "r2", Event.restoreCall "final transcript"] := by
  have h := run_final_result
    (ASRWsAudioHandler.build (some "1.2.3.4") (some 8090)
      (some "/paddlespeech/asr/streaming") none none)
    "ws://1.2.3.4:8090/paddlespeech/asr/streaming" demoServer (fun s => s ++ ".")
    [[1], [2], [3]]
    ((ASRWsAudioHandler.build (some "1.2.3.4") (some 8090)
      (some "/paddlespeech/asr/streaming") none none).run demoServer
      (fun s => s ++ ".") [[1], [2], [3]]).1
    (.dict { result := "final transcript.", extra := [] })
    { result := "r2", extra := [] } { result := "final transcript", extra := [] }
    rfl rfl rfl (by rfl)
  constructor
  · rw [show ((ASRWsAudioHandler.build (some "1.2.3.4") (some 8090)
        (some "/paddlespeech/asr/streaming") none none).run demoServer
        (fun s => s ++ ".") [[1], [2], [3]]).2
      = Except.ok (PyVal.dict { result := "final transcript.", extra := [] }) from rfl]
  · have h2 := h.2
    simpa using h2

/-- C7: with `url`, `port` or `endpoint` equal to `None` at construction,
`ASRWsAudioHandler.run` returns the empty result `""` immediately, with an
empty event trace — in particular zero connection attempts — as a valid
non-error outcome. -/
theorem run_unconfigured (url : Option String) (port : Option Nat) (endpoint : Option String)
    (pip : Option String) (pport : Option Nat) (srv : WsServer)
    (restore : String → String) (frames : List (List Int))
    (hnone : url = none ∨ port = none ∨ endpoint = none) :
    (ASRWsAudioHandler.build url port endpoint pip pport).run srv restore frames
        = ([], .ok (.str ""))
    ∧ Event.connect ∉
        ((ASRWsAudioHandler.build url port endpoint pip pport).run srv restore frames).1 := by
  have hb : (ASRWsAudioHandler.build url port endpoint pip pport).url = none := by
    rcases url with _ | u <;> rcases port with _ | p <;> rcases endpoint with _ | e <;>
      try rfl
    rcases hnone with hx | hx | hx <;> exact absurd hx (by simp)
  have h1 : (ASRWsAudioHandler.build url port endpoint pip pport).run srv restore frames
      = ([], .ok (.str "")) := by
    simp only [ASRWsAudioHandler.run, hb]
  refine ⟨h1, ?_⟩
  rw [h1]
  simp

/-- Witness for C7: the handler built with no server URL runs to the empty
result against any server, with an empty trace. -/
theorem run_unconfigured_witness :
    (ASRWsAudioHandler.build none none (some "/paddlespeech/asr/streaming") none none).run
        demoServer (fun s => s) [[1]] = ([], .ok (.str ""))
    ∧ Event.connect ∉
        ((ASRWsAudioHandler.build none none (some "/paddlespeech/asr/streaming")
          none none).run demoServer (fun s => s) [[1]]).1 :=
  run_unconfigured none none (some "/paddlespeech/asr/streaming") none none
    demoServer (fun s => s) [[1]] (Or.inl rfl)

/-- C8: transport-level failures during connect, send, or receive are not
caught inside `ASRWsAudioHandler.run`: whichever operation fails first (the
connect, the start-handshake send or receive, any chunk send or receive, or
the end-handshake send or receive), the run aborts with exactly that error
and no result value is produced. -/
theorem run_transport_propagates (h : ASRWsAudioHandler) (u : String) (srv : WsServer)
    (restore : String → String) (frames : List (List Int)) (hu : h.url = some u) :
    (∀ e, srv.connect = .error e →
        (h.run srv restore frames).2 = .error (.transport e))
    ∧ (∀ e, srv.connect = .ok () → srv.sendStart = .error e →
        (h.run srv restore frames).2 = .error (.transport e))
    ∧ (∀ e, srv.connect = .ok () → srv.sendStart = .ok () → srv.recvStart = .error e →
        (h.run srv restore frames).2 = .error (.transport e))
    ∧ (∀ k e, startOk srv → k < frames.length → framesOkBelow srv k →
        srv.sendFrame k = .error e →
        (h.run srv restore frames).2 = .error (.transport e))
    ∧ (∀ k e, startOk srv → k < frames.length → framesOkBelow srv k →
        srv.sendFrame k = .ok () → srv.recvFrame k = .error e →
        (h.run srv restore frames).2 = .error (.transport e))
    ∧ (∀ e, startOk srv → framesOkBelow srv frames.length → frames ≠ [] →
        srv.sendEnd = .error e →
        (h.run srv restore frames).2 = .error (.transport e))
    ∧ (∀ e, startOk srv → framesOkBelow srv frames.length → frames ≠ [] →
        srv.sendEnd = .ok () → srv.recvEnd = .error e →
        (h.run srv restore frames).2 = .error (.transport e)) := by
  refine ⟨?_, ?_, ?_, ?_, ?_, ?_, ?_⟩
  · intro e hc
    simp [ASRWsAudioHandler.run, hu, hc]
  · intro e hc hss
    simp [ASRWsAudioHandler.run, hu, hc, hss]
  · intro e hc hss hrs
    simp [ASRWsAudioHandler.run, hu, hc, hss, hrs]
  · rintro k e ⟨hc, hss, a, hrs⟩ hk hbelow herr
    have hln := runChunkLoop_sendErr srv frames 0 k (.str a) e hk
      (by intro j hj; simpa using hbelow j hj) (by simpa using herr)
    rcases hl : runChunkLoop srv (.str a) 0 frames with ⟨evs, res⟩
    rw [hl] at hln
    simp only at hln
    simp [ASRWsAudioHandler.run, hu, hc, hss, hrs, hl, hln]
  · rintro k e ⟨hc, hss, a, hrs⟩ hk hbelow hsk herr
    have hln := runChunkLoop_recvErr srv frames 0 k (.str a) e hk
      (by intro j hj; simpa using hbelow j hj) (by simpa using hsk) (by simpa using herr)
    rcases hl : runChunkLoop srv (.str a) 0 frames with ⟨evs, res⟩
    rw [hl] at hln
    simp only at hln
    simp [ASRWsAudioHandler.run, hu, hc, hss, hrs, hl, hln]
  · rintro e ⟨hc, hss, a, hrs⟩ hall hne hse
    have hok := runChunkLoop_allOk srv frames 0 (.str a)
      (by intro j hj; simpa using hall j hj)
    rcases hok with ⟨hfe, _⟩ | ⟨w, hw⟩
    · exact absurd hfe hne
    · rcases hl : runChunkLoop srv (.str a) 0 frames with ⟨evs, res⟩
      rw [hl] at hw
      simp only at hw
      simp [ASRWsAudioHandler.run, hu, hc, hss, hrs, hl, hw, PyVal.getResult, hse]
  · rintro e ⟨hc, hss, a, hrs⟩ hall hne hse hre
    have hok := runChunkLoop_allOk srv frames 0 (.str a)
      (by intro j hj; simpa using hall j hj)
    rcases hok with ⟨hfe, _⟩ | ⟨w, hw⟩
    · exact absurd hfe hne
    · rcases hl : runChunkLoop srv (.str a) 0 frames with ⟨evs, res⟩
      rw [hl] at hw
      simp only at hw
      simp [ASRWsAudioHandler.run, hu, hc, hss, hrs, hl, hw, PyVal.getResult, hse, hre]

/-- Witness for C8: the connect failure of `connFailServer` surfaces as the
run's result. -/
theorem run_transport_propagates_witness :
    ((ASRWsAudioHandler.build (some "1.2.3.4") (some 8090)
        (some "/paddlespeech/asr/streaming") none none).run connFailServer
        (fun s => s) [[1]]).2 = .error (.transport "boom") :=
  (run_transport_propagates
    (ASRWsAudioHandler.build (some "1.2.3.4") (some 8090)
      (some "/paddlespeech/asr/streaming") none none)
    "ws://1.2.3.4:8090/paddlespeech/asr/streaming" connFailServer
    (fun s => s) [[1]] rfl).1 "boom" rfl

/-- C10: `ASRWsAudioHandler.run` requires at least one audio frame: with an
empty chunk sequence, once the start handshake has succeeded the code
evaluates `msg['result']` on the raw start-acknowledgement string, raising a
`TypeError` instead of returning a result, and the `end` control message is
never sent. -/
theorem run_empty_frames (h : ASRWsAudioHandler) (u a : String) (srv : WsServer)
    (restore : String → String)
    (hu : h.url = some u) (hc : srv.connect = .ok ()) (hss : srv.sendStart = .ok ())
    (hrs : srv.recvStart = .ok a) :
    (h.run srv restore []).2 = .error .typeError
    ∧ Event.send .stop ∉ (h.run srv restore []).1 := by
  constructor <;>
    simp [ASRWsAudioHandler.run, hu, hc, hss, hrs, runChunkLoop, PyVal.getResult]

/-- Witness for C10: the mock server's successful start handshake followed by
zero frames produces the `TypeError`, not a result. -/
theorem run_empty_frames_witness :
    ((ASRWsAudioHandler.build (some "1.2.3.4") (some 8090)
        (some "/paddlespeech/asr/streaming") none none).run demoServer
        (fun s => s) []).2 = .error .typeError
    ∧ Event.send .stop ∉
        ((ASRWsAudioHandler.build (some "1.2.3.4") (some 8090)
          (some "/paddlespeech/asr/streaming") none none).run demoServer
          (fun s => s) []).1 :=
  run_empty_frames
    (ASRWsAudioHandler.build (some "1.2.3.4") (some 8090)
      (some "/paddlespeech/asr/streaming") none none)
    "ws://1.2.3.4:8090/paddlespeech/asr/streaming" "ack" demoServer (fun s => s)
    rfl rfl rfl rfl

/-- C9: the live-microphone loop of `run_online` has no exit condition: its
guard is literally `while True`, executing the loop with any finite fuel
never falls through to the code after it, no prefix of the loop's event
trace contains the `end` control send or the device `stop_stream`/`close`/
`terminate` calls, and every additional iteration strictly extends the
trace. -/
theorem run_online_never_terminates (resp : Nat → RecognitionResult)
    (mic : Nat → List Int) (finResult : String) (n i : Nat) :
    runOnlineLoopCond = true
    ∧ runOnlineExec resp mic finResult i n = none
    ∧ Event.send .stop ∉ runOnlineLoopEvents resp mic n
    ∧ Event.deviceStop ∉ runOnlineLoopEvents resp mic n
    ∧ Event.deviceClose ∉ runOnlineLoopEvents resp mic n
    ∧ Event.deviceTerminate ∉ runOnlineLoopEvents resp mic n
    ∧ ∃ l, runOnlineLoopEvents resp mic (n + 1) = runOnlineLoopEvents resp mic n ++ l
        ∧ l ≠ [] := by
  obtain ⟨h1, h2, h3, h4⟩ := runOnlineLoop_no_postloop resp mic n
  refine ⟨rfl, runOnlineExec_none resp mic finResult n i, h1, h2, h3, h4,
    runOnlineIter resp mic n, rfl, ?_⟩
  simp [runOnlineIter]
